import Mathlib

/-!
Verification of the release resolution and artifact acquisition pipeline of
the setup-nimskull action.

The development shallowly embeds the code of `src/searcher.ts` (triplet
matching, release scanning, manifest resolution) and the orchestration in the
action entry point (`setupCompiler`, `downloadAndExtractCompiler`).  External
collaborators (the GitHub GraphQL feed, the HTTP client, `@actions/tool-cache`,
the filesystem) are modelled at their interface boundary as explicit function
parameters, so every embedded operation is a pure, executable function.
-/

set_option maxRecDepth 4000

/-! ## String utilities

Executable, structurally recursive replacements for the JS string operations
used by the source (`split('-')`, `.match(/gnu/)`, `.endsWith('.zip')`).
They operate on `List Char` so that all proofs can be settled by kernel
reduction.
-/

/-- Split a character list at every occurrence of `c` (like JS `split`). -/
def listSplit (c : Char) : List Char → List (List Char)
  | [] => [[]]
  | x :: xs =>
    let r := listSplit c xs
    if x = c then [] :: r
    else
      match r with
      | y :: ys => (x :: y) :: ys
      | [] => [[x]]

/-- JS `s.split(c)` for a single-character separator. -/
def splitChar (s : String) (c : Char) : List String :=
  (listSplit c s.toList).map String.mk

/-- Is `pat` a prefix of `cs`? -/
def listPrefixEq : List Char → List Char → Bool
  | [], _ => true
  | _ :: _, [] => false
  | a :: as, b :: bs => a = b && listPrefixEq as bs

/-- Does `cs` contain `pat` as a contiguous run? -/
def containsAux (pat : List Char) : List Char → Bool
  | [] => listPrefixEq pat []
  | b :: bs => listPrefixEq pat (b :: bs) || containsAux pat bs

/-- Substring containment, the semantics of a literal JS regex test such as
`splitted[0].match(/arm/)`. -/
def strContains (s pat : String) : Bool :=
  containsAux pat.toList s.toList

/-- JS `url.endsWith(suffix)`. -/
def strEndsWith (s suffix : String) : Bool :=
  listPrefixEq suffix.toList.reverse s.toList.reverse

/-! ## Host descriptor and the triplet matcher (`tripletMatchesSystem`)

`src/searcher.ts` lines 144-222.  The host descriptor packages the values of
`os.arch()` and `os.platform()` that the source reads. -/

structure Host where
  arch : String
  platform : String
deriving DecidableEq

/-- The architecture switch of `tripletMatchesSystem` (`switch (os.arch())`,
src/searcher.ts lines 155-172): `arm` accepts any architecture segment
containing "arm", `arm64` only `aarch64`, `x64` only `x86_64`, anything else
never matches. -/
def archMatches (hostArch a : String) : Bool :=
  if hostArch = "arm" then strContains a "arm"
  else if hostArch = "arm64" then a == "aarch64"
  else if hostArch = "x64" then a == "x86_64"
  else false

/-- The optional environment/ABI check after a `linux`/`windows` OS segment
(src/searcher.ts lines 205-207 and 214-216): `if (splitted[scanPos])` — a
present, non-empty segment must contain "gnu". -/
def abiTruthyOk : Option String → Bool
  | none => true
  | some abi => if abi = "" then true else strContains abi "gnu"

/-- The OS switch of `tripletMatchesSystem` (src/searcher.ts lines 193-218);
`seg` is `splitted[scanPos]`, `abi` is `splitted[scanPos + 1]`.  An
unrecognized (or absent) OS token does not reject. -/
def osMatch (host : Host) (seg abi : Option String) : Bool :=
  match seg with
  | none => true
  | some s =>
    if s = "darwin" ∨ s = "macosx" then host.platform == "darwin"
    else if s = "linux" then
      if host.platform = "linux" then abiTruthyOk abi else false
    else if s = "windows" then
      if host.platform = "win32" then abiTruthyOk abi else false
    else true

/-- The vendor switch plus OS scan of `tripletMatchesSystem`
(src/searcher.ts lines 174-219).  Only the vendor tokens `pc` and `apple` are
consumed; any other second segment leaves `scanPos` at 1, so the OS switch
then examines that same segment. -/
def vendorOsMatch (host : Host) (splitted : List String) : Bool :=
  if splitted.length ≤ 1 then true
  else
    let v := (splitted.get? 1).getD ""
    if v = "pc" then
      if host.platform = "darwin" then false
      else osMatch host (splitted.get? 2) (splitted.get? 3)
    else if v = "apple" then
      if host.platform ≠ "darwin" then false
      else osMatch host (splitted.get? 2) (splitted.get? 3)
    else osMatch host (splitted.get? 1) (splitted.get? 2)

/-- `tripletMatchesSystem` applied to the already-split triplet: the empty
architecture check (`if (!splitted[0]) return false`) followed by the
architecture, vendor and OS gates. -/
def matchSplit (host : Host) (splitted : List String) : Bool :=
  let a := splitted.headD ""
  if a = "" then false
  else if archMatches host.arch a then vendorOsMatch host splitted
  else false

/-- Embedding of `tripletMatchesSystem` (src/searcher.ts lines 144-222),
with the host descriptor standing for `os.arch()`/`os.platform()`. -/
def tripletMatchesSystem (host : Host) (triplet : String) : Bool :=
  if triplet = "" then false
  else matchSplit host (splitChar triplet '-')

/-- The x64/linux CI host used throughout the spec's examples. -/
def hostX64Linux : Host := ⟨"x64", "linux"⟩

/-! ## Semver model

`findVersion` delegates tag/range satisfaction to the external `semver`
package.  Modelled from the spec: node-semver version parsing, precedence and
range satisfaction, restricted to the primitive-comparator fragment
(space-separated `<`/`<=`/`>`/`>=`/`=`/bare comparators and the any-version
range `*`/empty) that the action and its spec exercise, including node's
pre-release admission rule and the `includePrerelease` option.  A range
outside this fragment parses to `none` and satisfies nothing, mirroring
`semver.satisfies` returning `false` for ranges it cannot parse. -/

/-- A pre-release identifier: numeric identifiers compare numerically and
below every alphanumeric identifier. -/
inductive PreId where
  | num (n : Nat)
  | str (s : String)
deriving DecidableEq

structure SemVer where
  major : Nat
  minor : Nat
  patch : Nat
  prerelease : List PreId
deriving DecidableEq

/-- Character allowed in pre-release/build identifiers: `[0-9A-Za-z-]`. -/
def isIdChar (c : Char) : Bool :=
  c.isAlpha || c.isDigit || c = '-'

/-- Numeric value of a digit list. -/
def digitsVal (cs : List Char) : Nat :=
  cs.foldl (fun n c => n * 10 + (c.toNat - 48)) 0

/-- A strict numeric identifier: non-empty, digits only, no leading zero. -/
def parseNumStrict (cs : List Char) : Option Nat :=
  if cs = [] then none
  else if cs.all Char.isDigit then
    if 1 < cs.length ∧ cs.headD '0' = '0' then none
    else some (digitsVal cs)
  else none

/-- A pre-release identifier: numeric (no leading zeros) or alphanumeric. -/
def parsePreId (cs : List Char) : Option PreId :=
  if cs = [] then none
  else if cs.all Char.isDigit then (parseNumStrict cs).map PreId.num
  else if cs.all isIdChar then some (PreId.str (String.mk cs))
  else none

/-- Build metadata after `+`: dot-separated non-empty identifiers.  It is
validated but ignored for precedence, as in node-semver. -/
def validBuild (b : List Char) : Bool :=
  (listSplit '.' b).all (fun id => id ≠ [] && id.all isIdChar)

/-- Parse `major.minor.patch(-prerelease)?`. -/
def parseVerCore (cs : List Char) : Option SemVer :=
  match listSplit '-' cs with
  | [] => none
  | core :: pres =>
    match listSplit '.' core with
    | [ma, mi, pa] =>
      match parseNumStrict ma, parseNumStrict mi, parseNumStrict pa with
      | some a, some b, some c =>
        if pres = [] then some ⟨a, b, c, []⟩
        else
          match (listSplit '.' (List.intercalate ['-'] pres)).mapM parsePreId with
          | some ids => some ⟨a, b, c, ids⟩
          | none => none
      | _, _, _ => none
    | _ => none

/-- Parse a full version, separating optional build metadata. -/
def parseVerMain (cs : List Char) : Option SemVer :=
  match listSplit '+' cs with
  | [main] => parseVerCore main
  | [main, b] => if validBuild b then parseVerCore main else none
  | _ => none

/-- Parse a version with the optional leading `v` node-semver accepts. -/
def parseVerL (cs : List Char) : Option SemVer :=
  match cs with
  | 'v' :: rest => parseVerMain rest
  | _ => parseVerMain cs

/-- `new SemVer(version)` of node-semver, as a total parser. -/
def parseSemVer (s : String) : Option SemVer :=
  parseVerL s.toList

def cmpNat (a b : Nat) : Ordering :=
  if a < b then .lt else if b < a then .gt else .eq

/-- Compare two alphanumeric identifiers by character code. -/
def cmpCharList : List Char → List Char → Ordering
  | [], [] => .eq
  | [], _ :: _ => .lt
  | _ :: _, [] => .gt
  | a :: as, b :: bs =>
    match cmpNat a.toNat b.toNat with
    | .eq => cmpCharList as bs
    | o => o

def cmpPreId : PreId → PreId → Ordering
  | .num a, .num b => cmpNat a b
  | .num _, .str _ => .lt
  | .str _, .num _ => .gt
  | .str a, .str b => cmpCharList a.toList b.toList

/-- Compare non-empty pre-release identifier lists; a proper prefix has lower
precedence. -/
def cmpPreList : List PreId → List PreId → Ordering
  | [], [] => .eq
  | [], _ :: _ => .lt
  | _ :: _, [] => .gt
  | a :: as, b :: bs =>
    match cmpPreId a b with
    | .eq => cmpPreList as bs
    | o => o

/-- node-semver precedence: numeric triple, then a version without
pre-release outranks one with it. -/
def compareSemVer (a b : SemVer) : Ordering :=
  match cmpNat a.major b.major with
  | .eq =>
    match cmpNat a.minor b.minor with
    | .eq =>
      match cmpNat a.patch b.patch with
      | .eq =>
        match a.prerelease, b.prerelease with
        | [], [] => .eq
        | [], _ :: _ => .gt
        | _ :: _, [] => .lt
        | x, y => cmpPreList x y
      | o => o
    | o => o
  | o => o

inductive CompOp where
  | lt | le | gt | ge | eq
deriving DecidableEq

structure Comparator where
  op : CompOp
  ver : SemVer
deriving DecidableEq

def testComparator (v : SemVer) (c : Comparator) : Bool :=
  match c.op, compareSemVer v c.ver with
  | .lt, .lt => true
  | .le, .lt => true
  | .le, .eq => true
  | .gt, .gt => true
  | .ge, .gt => true
  | .ge, .eq => true
  | .eq, .eq => true
  | _, _ => false

/-- Parse one range token.  `some none` is a wildcard token contributing no
constraint; `none` marks an unparseable token (the whole range is then
invalid). -/
def parseComparatorL (cs : List Char) : Option (Option Comparator) :=
  match cs with
  | ['*'] => some none
  | ['x'] => some none
  | ['X'] => some none
  | '>' :: '=' :: rest => (parseVerL rest).map (fun v => some ⟨CompOp.ge, v⟩)
  | '<' :: '=' :: rest => (parseVerL rest).map (fun v => some ⟨CompOp.le, v⟩)
  | '>' :: rest => (parseVerL rest).map (fun v => some ⟨CompOp.gt, v⟩)
  | '<' :: rest => (parseVerL rest).map (fun v => some ⟨CompOp.lt, v⟩)
  | '=' :: rest => (parseVerL rest).map (fun v => some ⟨CompOp.eq, v⟩)
  | rest => (parseVerL rest).map (fun v => some ⟨CompOp.eq, v⟩)

def parseRangeToks : List String → Option (List Comparator)
  | [] => some []
  | t :: ts =>
    match parseComparatorL t.toList, parseRangeToks ts with
    | some (some c), some cs => some (c :: cs)
    | some none, some cs => some cs
    | _, _ => none

/-- `new Range(range)` over the primitive-comparator fragment; the empty
range and `*` denote the any-version range. -/
def parseRange (range : String) : Option (List Comparator) :=
  parseRangeToks ((splitChar range ' ').filter (fun t => t != ""))

/-- node's pre-release admission rule: a pre-release version is admitted if
`includePrerelease` is set, or some comparator carries a pre-release on the
same `[major, minor, patch]` tuple. -/
def prereleaseAllowed (incPre : Bool) (v : SemVer) (comps : List Comparator) : Bool :=
  v.prerelease.isEmpty || incPre ||
    comps.any (fun c =>
      !c.ver.prerelease.isEmpty && c.ver.major == v.major &&
        c.ver.minor == v.minor && c.ver.patch == v.patch)

/-- `semver.satisfies(version, range, { includePrerelease })`: `false` when
the version or the range does not parse, otherwise every comparator must hold
and the pre-release rule must admit the version. -/
def satisfies (version range : String) (incPre : Bool) : Bool :=
  match parseSemVer version, parseRange range with
  | some v, some comps => comps.all (testComparator v) && prereleaseAllowed incPre v comps
  | _, _ => false

/-! ## Release scanner (`getReleases`, `findVersion`)

src/searcher.ts lines 232-277 and 48-55. -/

structure PageInfo where
  startCursor : Option String
  hasPreviousPage : Bool
deriving DecidableEq

/-- One page of the remote release feed: the release names carried by the
`edges`, in the order the feed returned them, plus the page info. -/
structure ReleasePage where
  edges : List String
  pageInfo : PageInfo
deriving DecidableEq

/-- A run of the `getReleases` generator: the cursor sent with every GraphQL
request, the release names yielded, and whether the do-while loop exited
(`hasPreviousPage` became false) within the allotted number of iterations. -/
structure ScanTrace where
  requests : List (Option String)
  yields : List String
  finished : Bool
deriving DecidableEq

/-- Embedding of the `getReleases` do-while loop (src/searcher.ts lines
235-276) against a feed mapping a request cursor to a page, run for at most
`fuel` iterations.  The JS declares `let startCursor = null;` INSIDE the
do-while body, so every request is issued with a null cursor; the assignment
`({ startCursor, hasPreviousPage } = pageInfo)` writes to that block-scoped
variable, which dies at the end of the iteration. -/
def getReleasesRun (feed : Option String → ReleasePage) : Nat → ScanTrace
  | 0 => ⟨[], [], false⟩
  | fuel + 1 =>
    let startCursor : Option String := none
    let page := feed startCursor
    if page.pageInfo.hasPreviousPage then
      let rest := getReleasesRun feed fuel
      ⟨startCursor :: rest.requests, page.edges ++ rest.yields, rest.finished⟩
    else
      ⟨[startCursor], page.edges, true⟩

/-- The GraphQL document sent by `getReleases` (src/searcher.ts lines
246-263), whitespace-normalized. -/
def releasesQueryText : String :=
  "query ($owner: String!, $name: String!, $startCursor: String) \x7b repository(owner: $owner, name: $name) \x7b releases(before: $startCursor, last: 5) \x7b edges \x7b node \x7b name \x7d \x7d pageInfo \x7b startCursor hasPreviousPage \x7d \x7d \x7d \x7d"

/-- A concrete two-page feed: the first (cursor-less) request reports a
further page reachable through cursor `cursor0`. -/
def twoPageFeed : Option String → ReleasePage
  | none => ⟨["0.1.0-dev.2"], ⟨some "cursor0", true⟩⟩
  | some _ => ⟨["0.1.0-dev.1"], ⟨none, false⟩⟩

/-- Embedding of `findVersion` (src/searcher.ts lines 48-55): scan the
sequence produced by the scanner and return the first release name satisfying
the range, with `includePrerelease: true`; `none` when the sequence is
exhausted. -/
def findVersion (releases : List String) (range : String) : Option String :=
  releases.find? (fun r => satisfies r range true)

/-! ## Manifest resolution (`urlForAsset`, `getDownloadUrl`)

src/searcher.ts lines 66-83 and 95-134. -/

/-- One node of the GraphQL `releaseAssets(first: 1, name: ...)` answer. -/
structure AssetNode where
  downloadUrl : Option String
deriving DecidableEq

/-- The value of `downloadUrl || null` for a node (a falsy URL becomes
null). -/
def assetUrlOfNode (n : AssetNode) : Option String :=
  match n.downloadUrl with
  | some u => if u = "" then none else some u
  | none => none

/-- Embedding of `urlForAsset` (src/searcher.ts lines 95-134) given the
`nodes` array the feed answered for the asset name.  When the named asset is
absent the array is empty and the destructuring
`nodes: [ { downloadUrl } ]` throws a TypeError, modelled as the error
result. -/
def urlForAsset (nodes : List AssetNode) : Except String (Option String) :=
  match nodes with
  | [] => Except.error "TypeError: cannot destructure an empty releaseAssets.nodes array"
  | n :: _ => Except.ok (assetUrlOfNode n)

def SupportedManifestVersion : Int := 0

def HttpOK : Nat := 200

structure ArtifactDataV0 where
  name : String
  sha256 : String
deriving DecidableEq

structure BinaryArtifactDataV0 where
  name : String
  sha256 : String
  target : String
deriving DecidableEq

structure ReleaseManifestV0 where
  manifestVersion : Int
  version : String
  source : ArtifactDataV0
  binaries : List BinaryArtifactDataV0
deriving DecidableEq

/-- An HTTP answer for the manifest fetch: status code and the JSON-parsed
body. -/
structure ManifestFetch where
  statusCode : Nat
  manifest : ReleaseManifestV0
deriving DecidableEq

/-- Embedding of `getDownloadUrl` (src/searcher.ts lines 66-83) for one
release.  `assetNodes` is the feed's answer to the asset lookup by name (the
release and repository are fixed); `httpGet` is the HTTP client applied to
the URL `urlForAsset` produced for `manifest.json`. -/
def getDownloadUrl (host : Host) (assetNodes : String → List AssetNode)
    (httpGet : Option String → ManifestFetch) : Except String (Option String) :=
  match urlForAsset (assetNodes "manifest.json") with
  | Except.error e => Except.error e
  | Except.ok murl =>
    let manifestReq := httpGet murl
    if manifestReq.statusCode ≠ HttpOK then
      Except.error ("Fetching release manifest failed with status code: " ++
        toString manifestReq.statusCode)
    else
      let manifest := manifestReq.manifest
      if manifest.manifestVersion ≠ SupportedManifestVersion then
        Except.error ("Expected manifest version " ++ toString SupportedManifestVersion ++
          " but got " ++ toString manifest.manifestVersion)
      else
        match manifest.binaries.find? (fun x => tripletMatchesSystem host x.target) with
        | some b => urlForAsset (assetNodes b.name)
        | none => Except.ok none

/-! ## Acquisition pipeline (`downloadAndExtractCompiler`, `setupCompiler`) -/

/-- External collaborators of `downloadAndExtractCompiler`: download, the two
extraction codecs, the zstd decompression shim and the directory listing. -/
structure ExtractEnv where
  downloadTool : String → String
  extractZip : String → String
  unzstd : String → String
  extractTar : String → String
  readdir : String → List String

/-- The directory the archive at `url` is decompressed into: `.zip` goes to
the zip extractor, everything else is un-zstd-ed to a plain tar first and
then extracted. -/
def extractedDir (env : ExtractEnv) (url : String) : String :=
  let downloaded := env.downloadTool url
  if strEndsWith url ".zip" then env.extractZip downloaded
  else env.extractTar (env.unzstd downloaded)

def pathJoin (a b : String) : String := a ++ "/" ++ b

/-- Embedding of `downloadAndExtractCompiler` (action entry point): after
extraction the directory must hold exactly one top-level entry, which becomes
the compiler directory; any other count is a fatal error carrying the
observed count. -/
def downloadAndExtractCompiler (env : ExtractEnv) (url : String) : Except String String :=
  let result := extractedDir env url
  let files := env.readdir result
  if files.length ≠ 1 then
    Except.error ("Expected 1 folder in extracted archive but got " ++ toString files.length)
  else
    Except.ok (pathJoin result (files.headD ""))

/-- A release as the newer searcher hands it to the pipeline: feed-assigned
id plus tag string. -/
structure Release where
  tag : String
  id : String
deriving DecidableEq

/-- External collaborators of `setupCompiler`: version resolution against the
feed, manifest resolution, download-and-extract, and the path the tool cache
assigns to a stored version.  Each of the first three stands for at least one
network round-trip. -/
structure SetupEnv where
  findVersion : String → Option Release
  getDownloadUrl : String → Option String
  downloadAndExtract : String → Except String String

/-- Where the tool cache stores a version (`tc.cacheDir`); kept fixed across
calls. -/
structure CachePath where
  path : String → String

/-- The observable pipeline state: the tool-cache contents as
(version, directory) entries, and how many network operations have run. -/
structure SetupState where
  cache : List (String × String)
  networkCalls : Nat
deriving DecidableEq

/-- Modelled from the spec: the external Cache collaborator's
`find(toolName, versionOrRange)` (tool name fixed to `nimskull`), restricted
to exact version keys — the only form of key the theorems below exercise. -/
def tcFind (cache : List (String × String)) (spec : String) : Option String :=
  (cache.find? (fun e => e.1 == spec)).map (fun e => e.2)

/-- Embedding of `setupCompiler` (action entry point, newer variant): cache
lookup by the requested range, then — on miss or when an update is forced —
feed resolution, cache lookup by the resolved tag, manifest resolution,
download/extract, and a cache store under the resolved tag.  The returned
value is the install directory together with the final observable state. -/
def setupCompiler (env : SetupEnv) (cp : CachePath) (range : String) (update : Bool)
    (s0 : SetupState) : Except String (String × SetupState) :=
  let installDir0 := tcFind s0.cache range
  if installDir0.isNone || update then
    let s1 : SetupState := { s0 with networkCalls := s0.networkCalls + 1 }
    match env.findVersion range with
    | none => Except.error ("Could not find any release matching the specification: " ++ range)
    | some release =>
      match tcFind s1.cache release.tag with
      | some dir => Except.ok (dir, s1)
      | none =>
        let s2 : SetupState := { s1 with networkCalls := s1.networkCalls + 1 }
        match env.getDownloadUrl release.id with
        | none => Except.error "There are no prebuilt binaries for the current platform."
        | some url =>
          let s3 : SetupState := { s2 with networkCalls := s2.networkCalls + 1 }
          match env.downloadAndExtract url with
          | Except.error e => Except.error e
          | Except.ok _compilerDir =>
            let dir := cp.path release.tag
            Except.ok (dir, { s3 with cache := s3.cache ++ [(release.tag, dir)] })
  else
    Except.ok (installDir0.getD "", s0)

/-! ## Helper lemmas -/

theorem listPrefixEq_self (l : List Char) : listPrefixEq l l = true := by
  induction l with
  | nil => rfl
  | cons x xs ih => simp [listPrefixEq, ih]

theorem containsAux_self (pat : List Char) : containsAux pat pat = true := by
  cases pat with
  | nil => rfl
  | cons p ps => simp [containsAux, listPrefixEq_self]

theorem containsAux_append_self (pat xs : List Char) : containsAux pat (xs ++ pat) = true := by
  induction xs with
  | nil => simpa using containsAux_self pat
  | cons x xs ih => simp [containsAux, ih]

theorem strContains_append (a b : String) : strContains (a ++ b) b = true := by
  have h : (a ++ b).toList = a.toList ++ b.toList := by
    cases a; cases b; rfl
  rw [strContains, h]
  exact containsAux_append_self _ _

theorem find?_first {α : Type} (p : α → Bool) (l : List α) (a : α)
    (h : l.find? p = some a) :
    p a = true ∧ ∃ pre post, l = pre ++ a :: post ∧ ∀ x ∈ pre, p x = false := by
  induction l with
  | nil => simp at h
  | cons x xs ih =>
    by_cases hx : p x
    · rw [List.find?_cons_of_pos _ hx] at h
      cases h
      exact ⟨hx, [], xs, rfl, by simp⟩
    · rw [List.find?_cons_of_neg _ hx] at h
      obtain ⟨hpa, pre, post, rfl, hpre⟩ := ih h
      refine ⟨hpa, x :: pre, post, rfl, ?_⟩
      intro y hy
      rw [List.mem_cons] at hy
      rcases hy with rfl | hy
      · exact Bool.eq_false_iff.mpr hx
      · exact hpre y hy

theorem find?_of_decomp {α : Type} (p : α → Bool) (pre post : List α) (b : α)
    (hpre : ∀ x ∈ pre, p x = false) (hb : p b = true) :
    (pre ++ b :: post).find? p = some b := by
  induction pre with
  | nil => simp [List.find?_cons_of_pos _ hb]
  | cons x xs ih =>
    have hx : p x = false := hpre x (by simp)
    rw [List.cons_append, List.find?_cons_of_neg _ (by simp [hx])]
    exact ih (fun y hy => hpre y (by simp [hy]))

theorem tcFind_append_of_none (cache : List (String × String)) (tag dir : String) :
    tcFind cache tag = none → tcFind (cache ++ [(tag, dir)]) tag = some dir := by
  induction cache with
  | nil => intro _; simp [tcFind]
  | cons e es ih =>
    intro h
    unfold tcFind at h ⊢
    rw [List.find?_cons] at h
    rw [List.cons_append, List.find?_cons]
    by_cases he : (e.1 == tag) = true
    · simp only [he] at h
      simp at h
    · have he' : (e.1 == tag) = false := Bool.eq_false_iff.mpr he
      simp only [he'] at h ⊢
      exact ih h

theorem satisfies_parse_none (t r : String) (f : Bool) (h : parseSemVer t = none) :
    satisfies t r f = false := by
  cases hr : parseRange r <;> simp [satisfies, h, hr]

theorem archMatches_riscv (ha : String) : archMatches ha "riscv64" = false := by
  unfold archMatches
  by_cases e1 : ha = "arm"
  · rw [if_pos e1]; decide
  · rw [if_neg e1]
    by_cases e2 : ha = "arm64"
    · rw [if_pos e2]; decide
    · rw [if_neg e2]
      by_cases e3 : ha = "x64"
      · rw [if_pos e3]; decide
      · rw [if_neg e3]

theorem matchSplit_false_of_arch (host : Host) (a : String) (rest : List String)
    (h : archMatches host.arch a = false) : matchSplit host (a :: rest) = false := by
  by_cases ha : a = ""
  · simp [matchSplit, ha]
  · simp [matchSplit, ha, h]

theorem matchSplit_empty_arch (host : Host) (splitted : List String)
    (h : splitted.headD "" = "") : matchSplit host splitted = false := by
  unfold matchSplit
  rw [h]
  simp

/-- Claim C1, counterexample: on an x64/linux host the code accepts the
triplet `x86_64-unknown-linux-musl` (the claim says it is rejected): the
vendor switch consumes only `pc`/`apple`, so the token `unknown` leaves the
scan position at 1 and the `linux` OS segment — and with it the GNU-ABI
check — is never examined. -/
theorem c1_counterexample :
    tripletMatchesSystem hostX64Linux "x86_64-unknown-linux-musl" = true := by decide

/-- Claim C1 (amended): `x86_64-unknown-linux-gnu` matches on x64/linux, but
so does `x86_64-unknown-linux-musl`, because an unrecognized vendor token is
not consumed and the OS/ABI segments are then never examined.  The GNU-ABI
requirement applies exactly when the `linux` token sits at the scan position:
for a triplet split as `x86_64` :: `linux` :: abi :: rest on an x64/linux
host, a non-empty ABI segment without the substring "gnu" rejects, and an ABI
segment containing "gnu" accepts. -/
theorem c1_amended :
    tripletMatchesSystem hostX64Linux "x86_64-unknown-linux-gnu" = true ∧
    tripletMatchesSystem hostX64Linux "x86_64-unknown-linux-musl" = true ∧
    (∀ (abi : String) (rest : List String), abi ≠ "" → strContains abi "gnu" = false →
      matchSplit hostX64Linux ("x86_64" :: "linux" :: abi :: rest) = false) ∧
    (∀ (abi : String) (rest : List String), strContains abi "gnu" = true →
      matchSplit hostX64Linux ("x86_64" :: "linux" :: abi :: rest) = true) := by
  refine ⟨by decide, by decide, ?_, ?_⟩
  · intro abi rest h1 h2
    simp [matchSplit, archMatches, vendorOsMatch, osMatch, abiTruthyOk, hostX64Linux, h1, h2]
  · intro abi rest h2
    by_cases h1 : abi = "" <;>
      simp [matchSplit, archMatches, vendorOsMatch, osMatch, abiTruthyOk, hostX64Linux, h1, h2]

/-- Claim C1 amended, witness: the general ABI clauses applied to the
concrete segments of `x86_64-linux-musl` and `x86_64-linux-gnu`. -/
theorem c1_amended_witness :
    matchSplit hostX64Linux ["x86_64", "linux", "musl"] = false ∧
    matchSplit hostX64Linux ["x86_64", "linux", "gnu"] = true :=
  ⟨c1_amended.2.2.1 "musl" [] (by decide) (by decide),
   c1_amended.2.2.2 "gnu" [] (by decide)⟩

/-- Claim C9: the triplet matcher rejects an empty triplet and an empty
architecture segment; the architecture gate is a hard filter — host `x64`
only passes segment `x86_64`, host `arm64` only `aarch64`, host `arm` only
segments containing "arm", any other host architecture passes nothing — and
consequently `riscv64-unknown-linux-gnu` matches no host at all. -/
theorem c9_arch_gate :
    (∀ host : Host, tripletMatchesSystem host "" = false) ∧
    (∀ (host : Host) (t : String), (splitChar t '-').headD "" = "" →
      tripletMatchesSystem host t = false) ∧
    (∀ (host : Host) (a : String) (rest : List String), host.arch = "x64" →
      a ≠ "x86_64" → matchSplit host (a :: rest) = false) ∧
    (∀ (host : Host) (a : String) (rest : List String), host.arch = "arm64" →
      a ≠ "aarch64" → matchSplit host (a :: rest) = false) ∧
    (∀ (host : Host) (a : String) (rest : List String), host.arch = "arm" →
      strContains a "arm" = false → matchSplit host (a :: rest) = false) ∧
    (∀ (host : Host) (a : String) (rest : List String), host.arch ≠ "arm" →
      host.arch ≠ "arm64" → host.arch ≠ "x64" → matchSplit host (a :: rest) = false) ∧
    (∀ host : Host, tripletMatchesSystem host "riscv64-unknown-linux-gnu" = false) := by
  refine ⟨?_, ?_, ?_, ?_, ?_, ?_, ?_⟩
  · intro host; simp [tripletMatchesSystem]
  · intro host t h
    by_cases ht : t = ""
    · simp [tripletMatchesSystem, ht]
    · unfold tripletMatchesSystem
      rw [if_neg ht]
      exact matchSplit_empty_arch host _ h
  · intro host a rest h1 h2
    exact matchSplit_false_of_arch host a rest (by rw [h1]; simp [archMatches, h2])
  · intro host a rest h1 h2
    exact matchSplit_false_of_arch host a rest (by rw [h1]; simp [archMatches, h2])
  · intro host a rest h1 h2
    exact matchSplit_false_of_arch host a rest (by rw [h1]; simp [archMatches, h2])
  · intro host a rest h1 h2 h3
    exact matchSplit_false_of_arch host a rest (by simp [archMatches, h1, h2, h3])
  · intro host
    have hsplit : tripletMatchesSystem host "riscv64-unknown-linux-gnu" =
        matchSplit host ["riscv64", "unknown", "linux", "gnu"] := rfl
    rw [hsplit]
    exact matchSplit_false_of_arch host "riscv64" ["unknown", "linux", "gnu"]
      (archMatches_riscv host.arch)

/-- Claim C9, witness: the hard architecture filter at concrete inputs — the
x64 clause rejecting `riscv64` and the unsupported-architecture clause at a
`riscv64` host. -/
theorem c9_arch_gate_witness :
    matchSplit hostX64Linux ["riscv64", "unknown", "linux", "gnu"] = false ∧
    matchSplit ⟨"riscv64", "linux"⟩ ["x86_64", "linux", "gnu"] = false :=
  ⟨c9_arch_gate.2.2.1 hostX64Linux "riscv64" ["unknown", "linux", "gnu"] rfl (by decide),
   c9_arch_gate.2.2.2.2.2.1 ⟨"riscv64", "linux"⟩ "x86_64" ["linux", "gnu"]
     (by decide) (by decide) (by decide)⟩

/-- Claim C2: run against a feed whose first page announces a further page
reachable through cursor `cursor0`, the `getReleases` loop sends a null
cursor with every request — the continuation cursor returned by the previous
page is never used, because `let startCursor = null` is declared inside the
do-while body — and the loop never reaches the no-further-pages exit however
many iterations it is allowed. -/
theorem c2_cursor_dead : ∀ n : Nat,
    (getReleasesRun twoPageFeed n).finished = false ∧
    (getReleasesRun twoPageFeed n).requests = List.replicate n none := by
  intro n
  induction n with
  | zero => exact ⟨rfl, rfl⟩
  | succ k ih =>
    refine ⟨?_, ?_⟩
    · simp [getReleasesRun, twoPageFeed, ih.1]
    · simp [getReleasesRun, twoPageFeed, ih.2, List.replicate_succ]

/-- Claim C3: the GraphQL document `getReleases` sends contains no ordering
directive at all (no `orderBy` argument); it paginates backwards from the end
of the connection with `last: 5` and `before`, relying on the feed's default
order. -/
theorem c3_no_ordering_directive :
    strContains releasesQueryText "orderBy" = false ∧
    strContains releasesQueryText "last: 5" = true ∧
    strContains releasesQueryText "before: $startCursor" = true :=
  ⟨by decide, by decide, by decide⟩

/-- Claim C5: `findVersion` returns the first release of the scanner's
sequence whose tag satisfies the range with `includePrerelease: true` — every
earlier release, including those whose tags do not even parse as versions,
fails the satisfaction test and is skipped without an error — and it returns
`none` exactly when no release of the sequence satisfies the range. -/
theorem c5_findVersion (rs : List String) (range : String) :
    (∀ t, findVersion rs range = some t →
      satisfies t range true = true ∧ parseSemVer t ≠ none ∧
      ∃ pre post, rs = pre ++ t :: post ∧ ∀ u ∈ pre, satisfies u range true = false) ∧
    (findVersion rs range = none ↔ ∀ t ∈ rs, satisfies t range true = false) := by
  constructor
  · intro t h
    obtain ⟨hp, pre, post, heq, hpre⟩ := find?_first _ rs t h
    refine ⟨hp, ?_, pre, post, heq, hpre⟩
    intro hn
    rw [satisfies_parse_none t range true hn] at hp
    exact Bool.false_ne_true hp
  · unfold findVersion
    rw [List.find?_eq_none]
    constructor
    · intro h t ht
      exact Bool.eq_false_iff.mpr (h t ht)
    · intro h t ht
      exact Bool.eq_false_iff.mp (h t ht)

/-- Claim C5, witness: with the feed sequence `["not-a-version", "0.0.1",
"0.1.0-dev.20072"]` and the spec's range, resolution skips the unparseable
tag and the non-satisfying release and returns the pre-release tag
`0.1.0-dev.20072`. -/
theorem c5_findVersion_witness :
    satisfies "0.1.0-dev.20072" ">0.1.0-dev.20066 <0.1.0-dev.20074" true = true ∧
    parseSemVer "0.1.0-dev.20072" ≠ none :=
  have h := (c5_findVersion ["not-a-version", "0.0.1", "0.1.0-dev.20072"]
      ">0.1.0-dev.20066 <0.1.0-dev.20074").1 "0.1.0-dev.20072" (by decide)
  ⟨h.1, h.2.1⟩

/-- Claim C10: when the manifest names an asset absent from the release, the
feed answers an empty `nodes` array and `urlForAsset` surfaces an error (the
destructuring of the empty array throws) instead of returning a null
no-match result. -/
theorem c10_asset_missing :
    urlForAsset [] =
      Except.error "TypeError: cannot destructure an empty releaseAssets.nodes array" := rfl

/-- Claim C8: for every archive format — `.zip` dispatched to the zip
extractor, everything else through the zstd shim and the tar extractor —
whenever the extraction directory does not hold exactly one top-level entry,
`downloadAndExtractCompiler` fails with an error carrying the observed count
and never picks a first entry. -/
theorem c8_layout_check (env : ExtractEnv) (url : String)
    (h : (env.readdir (extractedDir env url)).length ≠ 1) :
    downloadAndExtractCompiler env url =
      Except.error ("Expected 1 folder in extracted archive but got " ++
        toString (env.readdir (extractedDir env url)).length) ∧
    strContains
      ("Expected 1 folder in extracted archive but got " ++
        toString (env.readdir (extractedDir env url)).length)
      (toString (env.readdir (extractedDir env url)).length) = true := by
  constructor
  · simp [downloadAndExtractCompiler, h]
  · exact strContains_append _ _

/-- An extraction environment whose directory listing reports two top-level
entries, regardless of archive format. -/
def twoEntryExtractEnv : ExtractEnv :=
  ⟨fun u => u ++ ".downloaded", fun p => p ++ ".zipdir", fun p => p ++ ".tar",
   fun p => p ++ ".tardir", fun _ => ["nimskull", "stray-file"]⟩

/-- Claim C8, witness: a zip archive and a tar-family archive, each
extracting to two top-level entries, both fail with the observed count 2. -/
theorem c8_layout_check_witness :
    downloadAndExtractCompiler twoEntryExtractEnv "https://example.invalid/a.zip" =
      Except.error "Expected 1 folder in extracted archive but got 2" ∧
    downloadAndExtractCompiler twoEntryExtractEnv "https://example.invalid/a.tar.zst" =
      Except.error "Expected 1 folder in extracted archive but got 2" :=
  ⟨(c8_layout_check twoEntryExtractEnv "https://example.invalid/a.zip" (by decide)).1,
   (c8_layout_check twoEntryExtractEnv "https://example.invalid/a.tar.zst" (by decide)).1⟩

/-- Claim C6: once the manifest asset URL resolves, a non-success HTTP status
for the manifest fetch is a fatal error carrying the status code, and a
successful fetch whose manifest declares a schema version other than the
supported version 0 is a fatal schema-mismatch error — in both cases whatever
the binaries collection contains, so before any binary-selection logic can
run. -/
theorem c6_manifest_errors (host : Host) (assetNodes : String → List AssetNode)
    (httpGet : Option String → ManifestFetch) (murl : Option String)
    (hres : urlForAsset (assetNodes "manifest.json") = Except.ok murl) :
    ((httpGet murl).statusCode ≠ HttpOK →
      getDownloadUrl host assetNodes httpGet =
        Except.error ("Fetching release manifest failed with status code: " ++
          toString (httpGet murl).statusCode)) ∧
    ((httpGet murl).statusCode = HttpOK →
      (httpGet murl).manifest.manifestVersion ≠ SupportedManifestVersion →
      getDownloadUrl host assetNodes httpGet =
        Except.error ("Expected manifest version " ++ toString SupportedManifestVersion ++
          " but got " ++ toString (httpGet murl).manifest.manifestVersion)) := by
  constructor
  · intro hst
    simp [getDownloadUrl, hres, hst]
  · intro hst hver
    simp [getDownloadUrl, hres, hst, hver]

/-- A fixed answer table resolving only the manifest asset. -/
def manifestOnlyNodes : String → List AssetNode :=
  fun a => if a = "manifest.json" then [⟨some "https://example.invalid/manifest.json"⟩] else []

/-- An HTTP client answering the manifest fetch with status 500. -/
def failingManifestHttp : Option String → ManifestFetch :=
  fun _ => ⟨500, ⟨0, "0.1.0-dev.1", ⟨"src.tar.zst", "aa"⟩, []⟩⟩

/-- An HTTP client answering with a well-formed manifest of schema version 1,
carrying a binary that would match an x64/linux host. -/
def versionOneManifestHttp : Option String → ManifestFetch :=
  fun _ => ⟨200, ⟨1, "0.1.0-dev.1", ⟨"src.tar.zst", "aa"⟩,
    [⟨"linux.tar.zst", "bb", "x86_64-linux-gnu"⟩]⟩⟩

/-- Claim C6, witness: a 500 answer fails with the status code, and a
schema-version-1 manifest fails with the mismatch message even though its
binaries collection contains an entry matching the host. -/
theorem c6_manifest_errors_witness :
    getDownloadUrl hostX64Linux manifestOnlyNodes failingManifestHttp =
      Except.error "Fetching release manifest failed with status code: 500" ∧
    getDownloadUrl hostX64Linux manifestOnlyNodes versionOneManifestHttp =
      Except.error "Expected manifest version 0 but got 1" :=
  ⟨(c6_manifest_errors hostX64Linux manifestOnlyNodes failingManifestHttp
      (some "https://example.invalid/manifest.json") rfl).1 (by decide),
   (c6_manifest_errors hostX64Linux manifestOnlyNodes versionOneManifestHttp
      (some "https://example.invalid/manifest.json") rfl).2 rfl (by decide)⟩

/-- Claim C7: on a successfully fetched, schema-valid manifest,
`getDownloadUrl` scans the binaries collection in listed order: when no entry
targets the host it returns a null result — a normal, non-error outcome —
and when some entry matches it resolves the asset URL of the first matching
entry, every entry listed before it being a non-match. -/
theorem c7_first_match (host : Host) (assetNodes : String → List AssetNode)
    (httpGet : Option String → ManifestFetch) (murl : Option String)
    (hres : urlForAsset (assetNodes "manifest.json") = Except.ok murl)
    (hst : (httpGet murl).statusCode = HttpOK)
    (hver : (httpGet murl).manifest.manifestVersion = SupportedManifestVersion) :
    ((∀ b ∈ (httpGet murl).manifest.binaries, tripletMatchesSystem host b.target = false) →
      getDownloadUrl host assetNodes httpGet = Except.ok none) ∧
    (∀ pre b post, (httpGet murl).manifest.binaries = pre ++ b :: post →
      (∀ x ∈ pre, tripletMatchesSystem host x.target = false) →
      tripletMatchesSystem host b.target = true →
      getDownloadUrl host assetNodes httpGet = urlForAsset (assetNodes b.name)) := by
  constructor
  · intro hall
    have hnone : (httpGet murl).manifest.binaries.find?
        (fun x => tripletMatchesSystem host x.target) = none := by
      rw [List.find?_eq_none]
      intro x hx
      simp [hall x hx]
    simp [getDownloadUrl, hres, hst, hver, hnone]
  · intro pre b post hdecomp hpre hb
    have hfind : (httpGet murl).manifest.binaries.find?
        (fun x => tripletMatchesSystem host x.target) = some b := by
      rw [hdecomp]
      exact find?_of_decomp _ pre post b hpre hb
    simp [getDownloadUrl, hres, hst, hver, hfind]

/-- Asset answers for the two-binary manifest below. -/
def twoBinaryNodes : String → List AssetNode :=
  fun a =>
    if a = "manifest.json" then [⟨some "https://example.invalid/manifest.json"⟩]
    else if a = "linux.tar.zst" then [⟨some "https://example.invalid/linux.tar.zst"⟩]
    else []

/-- A schema-valid manifest listing a Windows binary before a Linux one. -/
def twoBinaryManifestHttp : Option String → ManifestFetch :=
  fun _ => ⟨200, ⟨0, "0.1.0-dev.1", ⟨"src.tar.zst", "aa"⟩,
    [⟨"windows.zip", "bb", "x86_64-windows-gnu"⟩,
     ⟨"linux.tar.zst", "cc", "x86_64-linux-gnu"⟩]⟩⟩

/-- Claim C7, witness: on an x64/linux host the Windows entry listed first is
skipped and the URL of the first matching entry — the Linux binary — is
returned. -/
theorem c7_first_match_witness :
    getDownloadUrl hostX64Linux twoBinaryNodes twoBinaryManifestHttp =
      Except.ok (some "https://example.invalid/linux.tar.zst") :=
  ((c7_first_match hostX64Linux twoBinaryNodes twoBinaryManifestHttp
      (some "https://example.invalid/manifest.json") rfl rfl rfl).2
    [⟨"windows.zip", "bb", "x86_64-windows-gnu"⟩]
    ⟨"linux.tar.zst", "cc", "x86_64-linux-gnu"⟩ [] rfl
    (by decide) (by decide)).trans rfl

theorem setupCompiler_cache_hit (env : SetupEnv) (cp : CachePath) (range : String)
    (s : SetupState) (d : String) (h : tcFind s.cache range = some d) :
    setupCompiler env cp range false s = Except.ok (d, s) := by
  simp [setupCompiler, h]

theorem setupCompiler_ok_inv (env : SetupEnv) (cp : CachePath) (range : String)
    (s0 : SetupState) (dir : String) (s1 : SetupState)
    (h : setupCompiler env cp range false s0 = Except.ok (dir, s1)) :
    (tcFind s0.cache range = some dir ∧ s1 = s0) ∨
    (tcFind s0.cache range = none ∧ ∃ r, env.findVersion range = some r ∧
      (tcFind s0.cache r.tag = some dir ∨
       (tcFind s0.cache r.tag = none ∧ s1.cache = s0.cache ++ [(r.tag, dir)]))) := by
  cases hf0 : tcFind s0.cache range with
  | some d =>
    left
    simp [setupCompiler, hf0] at h
    exact ⟨by rw [h.1], h.2.symm⟩
  | none =>
    right
    refine ⟨rfl, ?_⟩
    cases hfv : env.findVersion range with
    | none => simp [setupCompiler, hf0, hfv] at h
    | some r =>
      refine ⟨r, rfl, ?_⟩
      cases hft : tcFind s0.cache r.tag with
      | some d2 =>
        left
        simp [setupCompiler, hf0, hfv, hft] at h
        rw [h.1]
      | none =>
        right
        refine ⟨rfl, ?_⟩
        cases hdl : env.getDownloadUrl r.id with
        | none => simp [setupCompiler, hf0, hfv, hft, hdl] at h
        | some url =>
          cases hex : env.downloadAndExtract url with
          | error e => simp [setupCompiler, hf0, hfv, hft, hdl, hex] at h
          | ok cd =>
            simp [setupCompiler, hf0, hfv, hft, hdl, hex] at h
            rw [← h.2, h.1]

/-- Claim C4: with the update flag off, a successful `setupCompiler` run for
an exact tag (the feed resolves that tag to a release carrying it) makes a
second run with the same tag an immediate cache hit: the second run returns
the same directory with the state — cache contents and network-call count —
completely unchanged, so it issues zero network calls and stores nothing.
The first run's cache lookups make an already-installed exact version
short-circuit before any feed traffic. -/
theorem c4_cache_idempotent (env : SetupEnv) (cp : CachePath) (tag dir : String)
    (s0 s1 : SetupState)
    (htag : ∀ r, env.findVersion tag = some r → r.tag = tag)
    (h1 : setupCompiler env cp tag false s0 = Except.ok (dir, s1)) :
    setupCompiler env cp tag false s1 = Except.ok (dir, s1) := by
  rcases setupCompiler_ok_inv env cp tag s0 dir s1 h1 with ⟨hf, rfl⟩ | ⟨hf0, r, hfv, hcase⟩
  · exact setupCompiler_cache_hit env cp tag s1 dir hf
  · have hrt := htag r hfv
    rcases hcase with hhit | ⟨hmiss, hcache⟩
    · rw [hrt, hf0] at hhit
      exact absurd hhit (by simp)
    · have hfind : tcFind s1.cache tag = some dir := by
        rw [hcache, hrt]
        exact tcFind_append_of_none s0.cache tag dir hf0
      exact setupCompiler_cache_hit env cp tag s1 dir hfind

/-- A feed resolving exactly the tag `0.1.0-dev.20072`, with manifest
resolution and extraction succeeding. -/
def c4setupEnv : SetupEnv :=
  ⟨fun range => if range = "0.1.0-dev.20072" then some ⟨"0.1.0-dev.20072", "RE_abc"⟩ else none,
   fun _ => some "https://example.invalid/linux.tar.zst",
   fun _ => Except.ok "/tmp/extracted/nimskull"⟩

def c4cachePath : CachePath := ⟨fun v => "/cache/nimskull/" ++ v⟩

/-- Claim C4, witness: starting from an empty cache, the first run resolves,
downloads and stores `0.1.0-dev.20072` after three network operations; the
theorem applied to that run shows the second run answers from the cache with
the state untouched — still exactly three network calls and one cache
entry. -/
theorem c4_cache_idempotent_witness :
    setupCompiler c4setupEnv c4cachePath "0.1.0-dev.20072" false
        ⟨[("0.1.0-dev.20072", "/cache/nimskull/0.1.0-dev.20072")], 3⟩ =
      Except.ok ("/cache/nimskull/0.1.0-dev.20072",
        ⟨[("0.1.0-dev.20072", "/cache/nimskull/0.1.0-dev.20072")], 3⟩) :=
  c4_cache_idempotent c4setupEnv c4cachePath "0.1.0-dev.20072"
    "/cache/nimskull/0.1.0-dev.20072" ⟨[], 0⟩
    ⟨[("0.1.0-dev.20072", "/cache/nimskull/0.1.0-dev.20072")], 3⟩
    (fun r h => by simp [c4setupEnv] at h; subst h; rfl) rfl
